import Mathlib

/-!
Shallow embedding of the `gemini-tools-play` conversational agent
(`src/main.rs`, `src/weather.rs`, `src/geo_location.rs`, `src/error.rs`)
and proofs of the specification claims about it.

Modelling conventions:
* JSON values (`serde_json::Value`) are the inductive `Json`; numbers are
  rationals (the program performs no arithmetic on them, it only copies
  `temp_c` / `temp_f` / `humidity` through).
* The environment, the weather provider (`weather::get_weather`) and the
  time provider (`geo_location::get_time`) are external collaborators; they
  are fields of a `World`.  A tool execution additionally records the list
  of external `Effect`s it performed (credential reads, provider calls) so
  that "without contacting any provider / reading any credential" is a
  statement about the effect trace.
* `buffer_unordered(3)` collects tool responses in completion order; that
  order is modelled by a scheduler function `sched` producing a permutation
  of the dispatched calls, and separately by the bounded-executor step
  relation `DStep` used for the concurrency-cap claim.
* Rust `String::trim` / `trim_start_matches('>')` are modelled on the
  character list of the string (`rustTrim`, `dropGt`).
-/

/-- JSON values, mirroring `serde_json::Value`. -/
inductive Json where
  | null : Json
  | bool (b : Bool) : Json
  | num (q : Rat) : Json
  | str (s : String) : Json
  | arr (xs : List Json) : Json
  | obj (fields : List (String × Json)) : Json

/-- `error.rs`: the `AppError` enum. -/
inductive AppError where
  | MissingParameter (p : String)
  | UnsupportedToolCall (n : String)
  | ApiRequestFailed (m : String)
  | EnvVarNotSet (v : String)
  | ResponseParseError (m : String)
  | RequestError (m : String)
  | IoError (m : String)
  | JsonError (m : String)
deriving DecidableEq

/-- The `Display` implementation derived by `thiserror` in `error.rs`. -/
def AppError.message : AppError → String
  | .MissingParameter p => "Missing parameter: " ++ p
  | .UnsupportedToolCall n => "Tool call function not implemented: " ++ n
  | .ApiRequestFailed m => "API request failed: " ++ m
  | .EnvVarNotSet v => "Environment variable not set: " ++ v
  | .ResponseParseError m => "Failed to parse API response: " ++ m
  | .RequestError m => "HTTP request error: " ++ m
  | .IoError m => "I/O error: " ++ m
  | .JsonError m => "JSON error: " ++ m

/-- `weather/response.rs`: `WeatherCondition`. -/
structure WeatherCondition where
  text : String

/-- `weather/response.rs`: `CurrentWeather`. -/
structure CurrentWeather where
  temp_c : Rat
  temp_f : Rat
  condition : WeatherCondition
  humidity : Int

/-- `weather/response.rs`: `WeatherResponse`. -/
structure WeatherResponse where
  current : CurrentWeather

/-- `geo_location/response.rs`: `TimeResponse`. -/
structure TimeResponse where
  date : String
  time_12 : String

/-- External collaborators of the tool executor: the process environment
(`std::env::var`), the weather provider (`weather::get_weather`, taking the
API key and the `"city,country"` location) and the time provider
(`geo_location::get_time`).  HTTP transport, non-success statuses and
payload parsing inside the providers are summarised by the `Except`
result, as the spec treats them as external collaborators. -/
structure World where
  env : String → Option String
  weather : String → String → Except AppError WeatherResponse
  geo : String → String → Except AppError TimeResponse

/-- Externally observable actions of one tool execution: reading a
credential from the environment, or calling one of the two providers. -/
inductive Effect where
  | envRead (name : String)
  | weatherCall (key loc : String)
  | geoCall (key loc : String)
deriving DecidableEq

/-- `genai::chat::ToolCall`: one tool invocation requested by the model. -/
structure ToolCall where
  call_id : String
  fn_name : String
  fn_arguments : Json

/-- `genai::chat::ToolResponse`.  In the Rust code `content` is the
serialized JSON text; it is modelled here as the JSON value itself. -/
structure ToolResponse where
  call_id : String
  content : Json

/-- `args.get(k)` on a `serde_json` object (first matching key). -/
def jLookup : List (String × Json) → String → Option Json
  | [], _ => none
  | (k, v) :: rest, key => if k = key then some v else jLookup rest key

/-- `args.get(k).and_then(|v| v.as_str())`. -/
def strArg (args : List (String × Json)) (k : String) : Option String :=
  match jLookup args k with
  | some (Json.str s) => some s
  | _ => none

/-- The `"get_weather"` arm of `make_tool_call` (`main.rs` lines 196-237):
extract `city`, `country`, `unit` (fail-fast on the first missing one,
`unit` being reported as `"temperature unit"`), read the
`WEATHER_API_KEY` credential, call the weather provider, and build the
result payload, selecting `temp_c` or `temp_f` by the requested unit with
a fallback to Celsius for any other string. -/
def weatherBranch (w : World) (args : List (String × Json)) :
    Except AppError Json × List Effect :=
  match strArg args "city" with
  | none => (.error (.MissingParameter "city"), [])
  | some city =>
    match strArg args "country" with
    | none => (.error (.MissingParameter "country"), [])
    | some country =>
      match strArg args "unit" with
      | none => (.error (.MissingParameter "temperature unit"), [])
      | some unit =>
        let location := city ++ "," ++ country
        match w.env "WEATHER_API_KEY" with
        | none => (.error (.EnvVarNotSet "WEATHER_API_KEY"),
                   [Effect.envRead "WEATHER_API_KEY"])
        | some key =>
          match w.weather key location with
          | .error e => (.error e,
                         [Effect.envRead "WEATHER_API_KEY",
                          Effect.weatherCall key location])
          | .ok wr =>
            let temperature : Rat :=
              if unit = "C" then wr.current.temp_c
              else if unit = "F" then wr.current.temp_f
              else wr.current.temp_c
            (.ok (Json.obj
                [("temperature", Json.num temperature),
                 ("condition", Json.str wr.current.condition.text),
                 ("humidity", Json.num (wr.current.humidity : Rat))]),
             [Effect.envRead "WEATHER_API_KEY",
              Effect.weatherCall key location])

/-- The `"get_current_time"` arm of `make_tool_call` (`main.rs` lines
240-268). -/
def timeBranch (w : World) (args : List (String × Json)) :
    Except AppError Json × List Effect :=
  match strArg args "city" with
  | none => (.error (.MissingParameter "city"), [])
  | some city =>
    match strArg args "country" with
    | none => (.error (.MissingParameter "country"), [])
    | some country =>
      let location := city ++ "," ++ country
      match w.env "IP_GEOLOCATION_API_KEY" with
      | none => (.error (.EnvVarNotSet "IP_GEOLOCATION_API_KEY"),
                 [Effect.envRead "IP_GEOLOCATION_API_KEY"])
      | some key =>
        match w.geo key location with
        | .error e => (.error e,
                       [Effect.envRead "IP_GEOLOCATION_API_KEY",
                        Effect.geoCall key location])
        | .ok tr =>
          (.ok (Json.obj [("time", Json.str (tr.date ++ " " ++ tr.time_12))]),
           [Effect.envRead "IP_GEOLOCATION_API_KEY",
            Effect.geoCall key location])

/-- The inner `async` block of `make_tool_call` (`main.rs` lines 189-274):
check that the arguments form a JSON object, then dispatch on the tool
name; an unknown name is `UnsupportedToolCall`. -/
def toolCallInner (w : World) (tc : ToolCall) :
    Except AppError Json × List Effect :=
  match tc.fn_arguments with
  | Json.obj args =>
    if tc.fn_name = "get_weather" then weatherBranch w args
    else if tc.fn_name = "get_current_time" then timeBranch w args
    else (.error (.UnsupportedToolCall tc.fn_name), [])
  | _ => (.error (.ResponseParseError "Invalid tool call arguments format"), [])

/-- `make_tool_call` (`main.rs` lines 176-291): run the inner block and
convert an error into a model-consumable `{"error": ...}` payload, in both
cases tagged with the invocation's `call_id`. -/
def make_tool_call (w : World) (tc : ToolCall) : ToolResponse × List Effect :=
  let r := toolCallInner w tc
  (⟨tc.call_id,
    match r.1 with
    | .ok payload => payload
    | .error e => Json.obj [("error", Json.str e.message)]⟩,
   r.2)

/-- Conversation messages, as the `genai` `ChatMessage`s the program
builds: user text, assistant text (`MessageContent::Text`), the
assistant's tool-call request (`MessageContent::ToolCalls`), and one
tool-response message per executed call (`genai` wraps each `ToolResponse`
appended with `append_message` into its own message). -/
inductive Message where
  | user (t : String)
  | assistantText (t : String)
  | assistantToolCalls (tcs : List ToolCall)
  | toolResponses (r : ToolResponse)

/-- `genai::chat::ChatRequest`: the fixed system prompt plus the ordered
transcript.  (The fixed tool declarations carry no information the claims
need beyond the registered names hard-coded in `make_tool_call`.) -/
structure ChatRequest where
  system : String
  messages : List Message

/-- `ChatRequest::append_message`. -/
def appendMsg (req : ChatRequest) (m : Message) : ChatRequest :=
  { req with messages := req.messages ++ [m] }

/-- The shapes of `ChatResponse.content` that `make_call` distinguishes:
`Text`, `ToolCalls`, any other variant, or `None`. -/
inductive ModelContent where
  | Text (t : String)
  | ToolCalls (tcs : List ToolCall)
  | Other

/-- One result of `client.exec_chat`: either a response with optional
content, or a transport error. -/
inductive ModelResp where
  | ok (c : Option ModelContent)
  | err (e : String)

/-- Rust `char::is_whitespace` (restricted to the ASCII whitespace the
transcripts contain). -/
def wsChar (c : Char) : Bool := c.isWhitespace

/-- Rust `str::trim` on the character list: drop whitespace from the
front, then from the back. -/
def trimChars (cs : List Char) : List Char :=
  (((cs.dropWhile wsChar).reverse.dropWhile wsChar)).reverse

/-- Rust `str::trim`. -/
def rustTrim (s : String) : String := ⟨trimChars s.data⟩

/-- Rust `str::trim_start_matches('>')`: drop every leading `'>'`. -/
def dropGt (s : String) : String := ⟨s.data.dropWhile (fun c => c = '>')⟩

/-- `main.rs` line 100: `buffer.trim_start_matches('>').trim()`. -/
def processedInput (s : String) : String := rustTrim (dropGt s)

/-- `make_call` (`main.rs` lines 300-350).  The model's answer for this
call is `mr`; `sched` gives the completion order in which
`buffer_unordered(3)` yields the tool responses (a permutation of the
dispatched calls).  A transport error of `exec_chat` becomes
`ApiRequestFailed` and propagates; every other outcome extends the
conversation: trimmed assistant text, or the tool-call request followed by
all collected tool responses, or a fallback text for unsupported/empty
content. -/
def make_call (w : World) (sched : List ToolCall → List ToolCall)
    (mr : ModelResp) (req : ChatRequest) : Except AppError ChatRequest :=
  match mr with
  | .err e => .error (.ApiRequestFailed ("Failed to call Gemini API: " ++ e))
  | .ok content =>
    .ok <|
      match content with
      | some (.Text text) => appendMsg req (.assistantText (rustTrim text))
      | some (.ToolCalls tcs) =>
        let req1 := appendMsg req (.assistantToolCalls tcs)
        let resps := (sched tcs).map (fun tc => (make_tool_call w tc).1)
        resps.foldl (fun r n => appendMsg r (.toolResponses n)) req1
      | some .Other => appendMsg req (.assistantText "Unsupported response type")
      | none => appendMsg req (.assistantText "No response")

/-- The `matches!(last_message.content, MessageContent::ToolResponses(_))`
test of `call_loop`. -/
def isToolResp : Message → Bool
  | .toolResponses _ => true
  | _ => false

/-- `call_loop` (`main.rs` lines 153-173): call the model repeatedly until
the last message is not a tool response.  The `script` lists the
successive `exec_chat` results; an exhausted script stands for a dead
model channel and is reported as a transport error.  Returns the updated
conversation together with the unconsumed rest of the script. -/
def call_loop (w : World) (sched : List ToolCall → List ToolCall) :
    List ModelResp → ChatRequest → Except AppError (ChatRequest × List ModelResp)
  | [], _ => .error (.ApiRequestFailed "Failed to call Gemini API: channel closed")
  | mr :: rest, req =>
    match make_call w sched mr req with
    | .error e => .error e
    | .ok req2 =>
      match req2.messages.getLast? with
      | some m => if isToolResp m then call_loop w sched rest req2 else .ok (req2, rest)
      | none => .ok (req2, rest)

/-- `main.rs` lines 123-131: the last message, if assistant text, is
compared against `"exit"`. -/
def exitAssistant (req : ChatRequest) : Bool :=
  match req.messages.getLast? with
  | some (.assistantText t) => t = "exit"
  | _ => false

/-- The collaborators of one session: the external `World` of the tool
providers and the completion-order scheduler of `buffer_unordered`. -/
structure SessionCfg where
  w : World
  sched : List ToolCall → List ToolCall

/-- Outcome of running the session loop for a bounded number of loop
iterations: `exited` is `main` returning `Ok(())` (process exit code 0),
carrying the final conversation and the unconsumed model script; `failed`
is a propagated error (`main` returns `Err`, nonzero exit code); `spin`
means the iteration budget ran out with the loop still going, carrying the
pending loop state (buffer, remaining input lines, remaining script,
conversation). -/
inductive SessResult where
  | exited (conv : ChatRequest) (script : List ModelResp)
  | failed (e : AppError)
  | spin (buffer : String) (inputs : List String) (script : List ModelResp)
      (conv : ChatRequest)

/-- The `while` loop of `main` (`main.rs` lines 99-138), one constructor
case per iteration.  Faithful to the source: on input that is blank after
stripping `'>'`s and trimming, the Rust `continue` re-enters the loop
without clearing the buffer and without reading another line, so the
recursive call keeps `buffer` and `inputs` unchanged.  At end of input
(`read_line` returning 0 bytes) the cleared buffer is empty. -/
def session_loop (cfg : SessionCfg) :
    Nat → String → List String → List ModelResp → ChatRequest → SessResult
  | 0, buffer, inputs, script, req => .spin buffer inputs script req
  | fuel + 1, buffer, inputs, script, req =>
    if rustTrim buffer = "exit" then .exited req script
    else
      if processedInput buffer = "" then
        session_loop cfg fuel buffer inputs script req
      else
        let req1 := appendMsg req (.user (processedInput buffer))
        match call_loop cfg.w cfg.sched script req1 with
        | .error e => .failed e
        | .ok (req2, script2) =>
          if exitAssistant req2 then .exited req2 script2
          else
            match inputs with
            | [] => session_loop cfg fuel "" [] script2 req2
            | l :: ls => session_loop cfg fuel l ls script2 req2

/-- `main` (`main.rs` lines 94-141): read the first line into the buffer
(empty at end of input), then run the loop. -/
def run_session (cfg : SessionCfg) (fuel : Nat) (inputs : List String)
    (script : List ModelResp) (req : ChatRequest) : SessResult :=
  match inputs with
  | [] => session_loop cfg fuel "" [] script req
  | l :: ls => session_loop cfg fuel l ls script req

/-- Characters of an appended string. -/
theorem data_append (s t : String) : (s ++ t).data = s.data ++ t.data := by
  cases s; cases t; rfl

/-- The first character surviving `dropWhile p` falsifies `p`. -/
theorem dropWhile_head_false {p : Char → Bool} :
    ∀ (l : List Char) (c : Char) (cs : List Char),
      l.dropWhile p = c :: cs → p c = false := by
  intro l
  induction l with
  | nil => intro c cs h; simp [List.dropWhile] at h
  | cons a as ih =>
    intro c cs h
    by_cases hp : p a
    · rw [List.dropWhile_cons_of_pos hp] at h
      exact ih c cs h
    · rw [List.dropWhile_cons_of_neg hp] at h
      cases h
      simpa using hp
  
/-- `dropWhile` keeps a suffix: the dropped part can be recovered. -/
theorem dropWhile_shape {p : Char → Bool} :
    ∀ (l : List Char), ∃ t, l = t ++ l.dropWhile p := by
  intro l
  induction l with
  | nil => exact ⟨[], rfl⟩
  | cons a as ih =>
    by_cases hp : p a
    · obtain ⟨t, ht⟩ := ih
      refine ⟨a :: t, ?_⟩
      rw [List.dropWhile_cons_of_pos hp]
      simpa using ht
    · exact ⟨[], by rw [List.dropWhile_cons_of_neg hp]; rfl⟩

/-- Dropping from the back (via `reverse`) keeps a front part intact. -/
theorem rev_dropWhile_front {p : Char → Bool} (l : List Char) :
    ∃ t, (l.reverse.dropWhile p).reverse ++ t = l := by
  obtain ⟨t, ht⟩ := dropWhile_shape (p := p) l.reverse
  refine ⟨t.reverse, ?_⟩
  have : l.reverse.reverse = (t ++ l.reverse.dropWhile p).reverse := by rw [← ht]
  rw [List.reverse_reverse, List.reverse_append] at this
  exact this.symm

/-- The first character of a trimmed string is not whitespace. -/
theorem trimChars_head_not_ws (cs : List Char) (c : Char) (cs' : List Char)
    (h : trimChars cs = c :: cs') : wsChar c = false := by
  obtain ⟨t, ht⟩ := rev_dropWhile_front (p := wsChar) (cs.dropWhile wsChar)
  unfold trimChars at h
  rw [h] at ht
  exact dropWhile_head_false (cs) c (cs' ++ t) (by rw [← ht]; simp)

/-- A processed user input line never begins with whitespace. -/
theorem processedInput_head_not_ws (b : String) (c : Char) (cs : List Char)
    (h : (processedInput b).data = c :: cs) : c.isWhitespace = false :=
  trimChars_head_not_ws (dropGt b).data c cs h

/-- Folding `appendMsg` over a list of tool responses appends the
corresponding messages in order. -/
theorem foldl_appendMsg (rs : List ToolResponse) :
    ∀ (r : ChatRequest),
      rs.foldl (fun r n => appendMsg r (.toolResponses n)) r =
        ⟨r.system, r.messages ++ rs.map Message.toolResponses⟩ := by
  induction rs with
  | nil => intro r; simp [appendMsg]
  | cons a as ih =>
    intro r
    rw [List.foldl_cons, ih]
    simp [appendMsg]

/-- Boolean substring test: `sub` occurs contiguously in `s`. -/
def containsSubB (s sub : String) : Bool :=
  (List.range (s.data.length + 1)).any
    (fun i => ((s.data.drop i).take sub.data.length) == sub.data)

/-- A string contains any of its suffixes, in particular the appended tail. -/
theorem containsSubB_append (pre n : String) : containsSubB (pre ++ n) n = true := by
  unfold containsSubB
  apply List.any_eq_true.mpr
  refine ⟨pre.data.length, List.mem_range.mpr ?_, ?_⟩
  · rw [data_append, List.length_append]
    omega
  · rw [data_append, List.drop_left, List.take_length]
    exact beq_self_eq_true n.data

/-- A world with no credentials and failing providers. -/
def w0 : World :=
  ⟨fun _ => none,
   fun _ _ => .error (.ApiRequestFailed "Failed to fetch weather data: 500"),
   fun _ _ => .error (.ApiRequestFailed "Failed to fetch time data: 500")⟩

/-- A world where both credentials are set and both providers answer. -/
def wOk : World :=
  ⟨fun n => if n = "WEATHER_API_KEY" then some "wk"
            else if n = "IP_GEOLOCATION_API_KEY" then some "gk" else none,
   fun _ _ => .ok ⟨⟨10, 50, ⟨"Sunny"⟩, 40⟩⟩,
   fun _ _ => .ok ⟨"2025-01-01", "10:00 AM"⟩⟩

/-- Completion order equal to dispatch order. -/
def schedId : List ToolCall → List ToolCall := fun l => l

/-- Reversed completion order. -/
def schedRev : List ToolCall → List ToolCall := fun l => l.reverse

/-- A session against `w0` with dispatch-order completion. -/
def cfg0 : SessionCfg := ⟨w0, schedId⟩

/-- Two invocations of an unregistered tool, used to observe completion
order through their distinct call-ids. -/
def t1c : ToolCall := ⟨"c1", "nop", Json.obj []⟩

/-- Second unregistered invocation. -/
def t2c : ToolCall := ⟨"c2", "nop", Json.obj []⟩

/-- An empty conversation with the system prompt of `main.rs`. -/
def req0 : ChatRequest :=
  ⟨"Answer with one sentence or tool call. Send `exit` to stop.", []⟩

/-- One session iteration on a non-blank, non-exit input line whose model
reply is plain text trimming to `"exit"`: the user message and the trimmed
assistant text are appended and the session exits. -/
theorem session_step_text (cfg : SessionCfg) (fuel : Nat) (b : String)
    (ins : List String) (scr : List ModelResp) (req : ChatRequest) (t : String)
    (h1 : rustTrim b ≠ "exit") (h2 : processedInput b ≠ "")
    (h3 : rustTrim t = "exit") :
    session_loop cfg (fuel + 1) b ins
        (ModelResp.ok (some (ModelContent.Text t)) :: scr) req =
      SessResult.exited
        ⟨req.system,
         req.messages ++ [Message.user (processedInput b),
                          Message.assistantText "exit"]⟩ scr := by
  rw [session_loop, if_neg h1, if_neg h2]
  have hmk : make_call cfg.w cfg.sched (ModelResp.ok (some (ModelContent.Text t)))
      (appendMsg req (.user (processedInput b))) =
      .ok (appendMsg (appendMsg req (.user (processedInput b)))
            (.assistantText "exit")) := by
    rw [make_call, h3]
  have hcl : call_loop cfg.w cfg.sched
      (ModelResp.ok (some (ModelContent.Text t)) :: scr)
      (appendMsg req (.user (processedInput b))) =
      .ok (appendMsg (appendMsg req (.user (processedInput b)))
            (.assistantText "exit"), scr) := by
    simp only [call_loop, hmk]
    simp [appendMsg, List.getLast?_concat, isToolResp]
  have hex : exitAssistant (appendMsg (appendMsg req (.user (processedInput b)))
      (.assistantText "exit")) = true := by
    simp [exitAssistant, appendMsg, List.getLast?_concat]
  simp only [hcl, hex, if_true]
  simp [appendMsg]

/-- State of one dispatch round of the bounded executor: invocations not
yet started (in dispatch order), invocations in flight, and collected
responses in completion order. -/
structure DispatchState where
  pending : List ToolCall
  inflight : List ToolCall
  done : List ToolResponse

/-- Modelled from the spec: the bounded-concurrency executor
(`stream::iter(tool_calls).map(...).buffer_unordered(3)` at `main.rs` line
321-325; the `futures` crate itself is not part of this repository).  Per
spec section 5, a round dispatches every invocation of one model reply
concurrently with a cap of in-flight executions; excess invocations wait
for a free slot.  `start` begins the next pending invocation when a slot
is free; `finish` completes any in-flight invocation, appending its
response. -/
inductive DStep (w : World) (cap : Nat) : DispatchState → DispatchState → Prop
  | start (tc : ToolCall) (rest fl : List ToolCall) (d : List ToolResponse) :
      fl.length < cap →
      DStep w cap ⟨tc :: rest, fl, d⟩ ⟨rest, fl ++ [tc], d⟩
  | finish (p : List ToolCall) (fl1 fl2 : List ToolCall) (tc : ToolCall)
      (d : List ToolResponse) :
      DStep w cap ⟨p, fl1 ++ tc :: fl2, d⟩
        ⟨p, fl1 ++ fl2, d ++ [(make_tool_call w tc).1]⟩

/-- Executor invariant: the in-flight set respects the cap, and the
pending, in-flight and finished invocations are together a permutation of
the dispatched round, with every response computed by `make_tool_call`. -/
def DInv (w : World) (cap : Nat) (tcs : List ToolCall) (s : DispatchState) : Prop :=
  s.inflight.length ≤ cap ∧
  ∃ fin : List ToolCall,
    s.done = fin.map (fun tc => (make_tool_call w tc).1) ∧
    (s.pending ++ (s.inflight ++ fin)).Perm tcs

/-- The invariant holds initially. -/
theorem DInv_init (w : World) (cap : Nat) (tcs : List ToolCall) :
    DInv w cap tcs ⟨tcs, [], []⟩ := by
  refine ⟨by simp, [], by simp, by simp⟩

/-- Each executor step preserves the invariant. -/
theorem DInv_step (w : World) (cap : Nat) (tcs : List ToolCall)
    (s s' : DispatchState) (hstep : DStep w cap s s') (hinv : DInv w cap tcs s) :
    DInv w cap tcs s' := by
  obtain ⟨hlen, fin, hdone, hperm⟩ := hinv
  cases hstep with
  | start tc rest fl d h =>
    refine ⟨by simpa using h, fin, hdone, ?_⟩
    refine List.Perm.trans ?_ hperm
    rw [← Multiset.coe_eq_coe]
    simp only [← Multiset.cons_coe, ← Multiset.coe_add]
    simp [← Multiset.coe_add, ← Multiset.singleton_add, add_comm, add_left_comm, add_assoc]
  | finish p fl1 fl2 tc d =>
    refine ⟨?_, fin ++ [tc], ?_, ?_⟩
    · simp only [List.length_append, List.length_cons] at hlen ⊢
      omega
    · have hd : d = fin.map (fun tc => (make_tool_call w tc).1) := hdone
      simp [hd]
    · refine List.Perm.trans ?_ hperm
      rw [← Multiset.coe_eq_coe]
      simp only [← Multiset.cons_coe, ← Multiset.coe_add]
      simp [← Multiset.coe_add, ← Multiset.singleton_add, add_comm, add_left_comm, add_assoc]

/-- Claim C1: after an `AssistantToolRequest` message with call-ids
{c1..cn} is appended, the messages appended immediately after it are
exactly one tool result per requested call — computed by `make_tool_call`,
which tags both its success and failure branches with the invocation's
`call_id` — and their call-id multiset equals {c1..cn}, for every
completion order of the concurrent executions. -/
theorem c1_toolResults_match_request (w : World)
    (sched : List ToolCall → List ToolCall) (tcs : List ToolCall)
    (req : ChatRequest) (h : (sched tcs).Perm tcs) :
    make_call w sched (ModelResp.ok (some (ModelContent.ToolCalls tcs))) req =
      Except.ok ⟨req.system,
        req.messages ++ Message.assistantToolCalls tcs ::
          ((sched tcs).map fun tc => Message.toolResponses (make_tool_call w tc).1)⟩ ∧
    ((sched tcs).map fun tc => (make_tool_call w tc).1.call_id).Perm
      (tcs.map ToolCall.call_id) := by
  constructor
  · simp only [make_call]
    rw [foldl_appendMsg]
    simp [appendMsg, List.map_map, Function.comp]
  · exact h.map ToolCall.call_id

-- Witness for C1 at a concrete dispatch round of two invocations.
theorem c1_toolResults_match_request_witness :
    make_call w0 schedId (ModelResp.ok (some (ModelContent.ToolCalls [t1c, t2c]))) req0 =
      Except.ok ⟨req0.system,
        req0.messages ++ Message.assistantToolCalls [t1c, t2c] ::
          ((schedId [t1c, t2c]).map fun tc =>
            Message.toolResponses (make_tool_call w0 tc).1)⟩ ∧
    ((schedId [t1c, t2c]).map fun tc => (make_tool_call w0 tc).1.call_id).Perm
      ([t1c, t2c].map ToolCall.call_id) :=
  c1_toolResults_match_request w0 schedId [t1c, t2c] req0 (List.Perm.refl _)

/-- Claim C2: every failure of a tool execution is converted into a tool
result whose payload is a JSON object with an `"error"` field, carrying
the invocation's `call_id` (which `make_tool_call` preserves on both
branches); and `make_call` propagates an error precisely when the
model-call channel itself (`exec_chat`) failed — a tool failure never
produces an error of `make_call`. -/
theorem c2_tool_failures_nonfatal :
    (∀ (w : World) (tc : ToolCall),
        (make_tool_call w tc).1.call_id = tc.call_id ∧
        ∀ e, (toolCallInner w tc).1 = Except.error e →
          (make_tool_call w tc).1.content =
            Json.obj [("error", Json.str e.message)]) ∧
    (∀ (w : World) (sched : List ToolCall → List ToolCall) (mr : ModelResp)
        (req : ChatRequest),
        (∃ e, make_call w sched mr req = Except.error e) ↔
          ∃ s, mr = ModelResp.err s) := by
  constructor
  · intro w tc
    refine ⟨rfl, ?_⟩
    intro e he
    have hc : (make_tool_call w tc).1.content =
        (match (toolCallInner w tc).1 with
         | .ok payload => payload
         | .error e => Json.obj [("error", Json.str e.message)]) := rfl
    rw [hc, he]
  · intro w sched mr req
    cases mr with
    | ok c => simp [make_call]
    | err s => simp [make_call]

-- Witness for C2: a failing invocation (unregistered tool) at a concrete
-- input yields the error-object payload.
theorem c2_tool_failures_nonfatal_witness :
    (make_tool_call w0 ⟨"e1", "frobnicate", Json.obj []⟩).1.content =
      Json.obj [("error", Json.str (AppError.UnsupportedToolCall "frobnicate").message)] :=
  (c2_tool_failures_nonfatal.1 w0 ⟨"e1", "frobnicate", Json.obj []⟩).2
    (AppError.UnsupportedToolCall "frobnicate") rfl

/-- The first required parameter of a registered tool that is missing or
not a string, in the validation order of `make_tool_call`: `city`,
`country`, then (for `get_weather`) `unit`; `none` when extraction
succeeds for all of them. -/
def firstMissingParam (name : String) (args : List (String × Json)) :
    Option String :=
  if name = "get_weather" then
    if strArg args "city" = none then some "city"
    else if strArg args "country" = none then some "country"
    else if strArg args "unit" = none then some "unit"
    else none
  else if name = "get_current_time" then
    if strArg args "city" = none then some "city"
    else if strArg args "country" = none then some "country"
    else none
  else none

/-- The name under which `make_tool_call` reports a missing parameter:
`unit` is reported as `"temperature unit"` (`main.rs` line 211). -/
def reportedName (p : String) : String :=
  if p = "unit" then "temperature unit" else p

/-- A `get_weather` invocation whose `unit` is a string outside the
declared enum `{"C","F"}`. -/
def tcUnitK : ToolCall :=
  ⟨"cid", "get_weather",
   Json.obj [("city", Json.str "Paris"), ("country", Json.str "FR"),
             ("unit", Json.str "K")]⟩

/-- Counterexample to claim C3 as stated: `unit = "K"` is a string outside
the declared enum `{"C","F"}`, yet execution does not stop — the
credential is read, the weather provider is contacted, and the call
succeeds with the Celsius fallback instead of yielding a failure naming
`unit`. -/
theorem c3_unit_enum_not_validated_cex :
    ("K" ≠ "C" ∧ "K" ≠ "F") ∧
    (make_tool_call wOk tcUnitK).2 =
      [Effect.envRead "WEATHER_API_KEY", Effect.weatherCall "wk" "Paris,FR"] ∧
    (make_tool_call wOk tcUnitK).1 =
      ⟨"cid", Json.obj [("temperature", Json.num 10),
                        ("condition", Json.str "Sunny"),
                        ("humidity", Json.num 40)]⟩ :=
  ⟨⟨by decide, by decide⟩, rfl, rfl⟩

/-- The validation prefix of both tool branches: when
`firstMissingParam` finds a missing parameter, the inner execution fails
with `MissingParameter` under the reported name, with an empty effect
trace, and the parameter is one of the three schema names. -/
theorem firstMissing_toolCallInner (w : World) (tc : ToolCall)
    (args : List (String × Json)) (p : String)
    (hargs : tc.fn_arguments = Json.obj args)
    (hp : firstMissingParam tc.fn_name args = some p) :
    toolCallInner w tc =
      (.error (.MissingParameter (reportedName p)), []) ∧
    (p = "city" ∨ p = "country" ∨ p = "unit") := by
  simp only [toolCallInner, hargs]
  unfold firstMissingParam at hp
  by_cases hw : tc.fn_name = "get_weather"
  · simp only [hw, if_true, if_pos rfl] at hp ⊢
    unfold weatherBranch
    cases hc : strArg args "city" with
    | none =>
      simp only [hc, if_pos rfl] at hp ⊢
      cases hp
      simp [reportedName]
    | some city =>
      simp only [hc] at hp ⊢
      rw [if_neg (by simp)] at hp
      cases hco : strArg args "country" with
      | none =>
        simp only [hco, if_pos rfl] at hp ⊢
        cases hp
        simp [reportedName]
      | some country =>
        simp only [hco] at hp ⊢
        rw [if_neg (by simp)] at hp
        cases hu : strArg args "unit" with
        | none =>
          simp only [hu, if_pos rfl] at hp ⊢
          cases hp
          simp [reportedName]
        | some unit =>
          rw [hu, if_neg (by simp)] at hp
          cases hp
  · simp only [hw, if_false, if_neg hw] at hp ⊢
    by_cases ht : tc.fn_name = "get_current_time"
    · simp only [ht, if_true, if_pos rfl] at hp ⊢
      unfold timeBranch
      cases hc : strArg args "city" with
      | none =>
        simp only [hc, if_pos rfl] at hp ⊢
        cases hp
        simp [reportedName]
      | some city =>
        simp only [hc] at hp ⊢
        rw [if_neg (by simp)] at hp
        cases hco : strArg args "country" with
        | none =>
          simp only [hco, if_pos rfl] at hp ⊢
          cases hp
          simp [reportedName]
        | some country =>
          rw [hco, if_neg (by simp)] at hp
          cases hp
    · rw [if_neg ht] at hp
      cases hp

/-- Claim C3 (amended): required-parameter validation checks presence and
string type only — the declared enum of `unit` is not enforced (see the
counterexample, where a string `unit` outside `{"C","F"}` proceeds to the
provider and falls back to Celsius).  For every invocation of a registered
tool in which some required parameter is missing or not a string,
execution stops at the first such parameter (order `city`, `country`,
then `unit` for `get_weather`), without contacting any provider and
without reading any credential, yielding a failure whose message contains
that parameter's name (`unit` being reported as `"temperature unit"`). -/
theorem c3_missing_param_fail_fast (w : World) (tc : ToolCall)
    (args : List (String × Json)) (p : String)
    (hargs : tc.fn_arguments = Json.obj args)
    (hp : firstMissingParam tc.fn_name args = some p) :
    make_tool_call w tc =
      (⟨tc.call_id,
        Json.obj [("error",
          Json.str ("Missing parameter: " ++ reportedName p))]⟩, []) ∧
    containsSubB ("Missing parameter: " ++ reportedName p) p = true := by
  obtain ⟨hinner, hmem⟩ := firstMissing_toolCallInner w tc args p hargs hp
  constructor
  · have hdef : make_tool_call w tc =
        (⟨tc.call_id,
          match (toolCallInner w tc).1 with
          | .ok payload => payload
          | .error e => Json.obj [("error", Json.str e.message)]⟩,
         (toolCallInner w tc).2) := rfl
    rw [hdef, hinner]
    rfl
  · rcases hmem with rfl | rfl | rfl <;> decide

/-- A `get_weather` invocation with no `country` argument. -/
def tcNoCountry : ToolCall :=
  ⟨"m1", "get_weather", Json.obj [("city", Json.str "Oslo")]⟩

-- Witness for (amended) C3 at a concrete invocation missing `country`.
theorem c3_missing_param_fail_fast_witness :
    make_tool_call w0 tcNoCountry =
      (⟨"m1", Json.obj [("error",
        Json.str ("Missing parameter: " ++ reportedName "country"))]⟩, []) ∧
    containsSubB ("Missing parameter: " ++ reportedName "country") "country" = true :=
  c3_missing_param_fail_fast w0 tcNoCountry [("city", Json.str "Oslo")] "country"
    rfl (by decide)

/-- An invocation of an unregistered tool whose arguments are not a JSON
object. -/
def tcBadNull : ToolCall := ⟨"b1", "frobnicate", Json.null⟩

/-- Counterexample to claim C4 as stated: an invocation of the
unregistered tool `"frobnicate"` whose arguments are not a JSON object is
rejected by the argument-format check, which precedes tool-name
resolution, so the failure message is the invalid-arguments one and does
not identify the unregistered name. -/
theorem c4_unsupported_tool_nonobject_args_cex :
    ("frobnicate" ≠ "get_weather" ∧ "frobnicate" ≠ "get_current_time") ∧
    make_tool_call w0 tcBadNull =
      (⟨"b1", Json.obj [("error",
        Json.str "Failed to parse API response: Invalid tool call arguments format")]⟩,
       []) ∧
    containsSubB "Failed to parse API response: Invalid tool call arguments format"
      "frobnicate" = false :=
  ⟨⟨by decide, by decide⟩, rfl, by decide⟩

/-- Claim C4 (amended): for every invocation whose arguments form a JSON
object and whose tool name is neither `get_weather` nor
`get_current_time`, execution yields a failure payload whose message
(`"Tool call function not implemented: <name>"`) identifies the
unregistered name, without contacting any provider and without reading
any credential; when the arguments are not a JSON object the
invalid-arguments failure is reported instead, since that check precedes
name resolution. -/
theorem c4_unsupported_tool_failure (w : World) (tc : ToolCall)
    (args : List (String × Json)) (hargs : tc.fn_arguments = Json.obj args)
    (h1 : tc.fn_name ≠ "get_weather") (h2 : tc.fn_name ≠ "get_current_time") :
    make_tool_call w tc =
      (⟨tc.call_id, Json.obj [("error",
        Json.str ("Tool call function not implemented: " ++ tc.fn_name))]⟩, []) ∧
    containsSubB ("Tool call function not implemented: " ++ tc.fn_name)
      tc.fn_name = true := by
  have hinner : toolCallInner w tc =
      (.error (.UnsupportedToolCall tc.fn_name), []) := by
    simp only [toolCallInner, hargs]
    rw [if_neg h1, if_neg h2]
  constructor
  · have hdef : make_tool_call w tc =
        (⟨tc.call_id,
          match (toolCallInner w tc).1 with
          | .ok payload => payload
          | .error e => Json.obj [("error", Json.str e.message)]⟩,
         (toolCallInner w tc).2) := rfl
    rw [hdef, hinner]
    rfl
  · exact containsSubB_append "Tool call function not implemented: " tc.fn_name

-- Witness for (amended) C4 at a concrete unregistered invocation with
-- object arguments.
theorem c4_unsupported_tool_failure_witness :
    make_tool_call w0 ⟨"b2", "telescope", Json.obj []⟩ =
      (⟨"b2", Json.obj [("error",
        Json.str ("Tool call function not implemented: " ++ "telescope"))]⟩, []) ∧
    containsSubB ("Tool call function not implemented: " ++ "telescope")
      "telescope" = true :=
  c4_unsupported_tool_failure w0 ⟨"b2", "telescope", Json.obj []⟩ [] rfl
    (by decide) (by decide)

/-- The sequence of tool-result call-ids of a transcript, in append
order. -/
def callIdTrace (r : Except AppError ChatRequest) : List String :=
  match r with
  | .ok req => req.messages.filterMap
      (fun m => match m with
        | .toolResponses tr => some tr.call_id
        | _ => none)
  | .error _ => []

/-- Counterexample to claim C5 as stated: with the same fixed world and
the same model reply (two tool calls), two runs that differ only in the
completion order of the concurrent executions — both orders being
permutations `buffer_unordered` can yield — produce different transcripts:
the tool-result messages appear in different orders. -/
theorem c5_transcript_order_not_determined_cex :
    (schedRev [t1c, t2c]).Perm [t1c, t2c] ∧
    callIdTrace (make_call w0 schedRev
        (ModelResp.ok (some (ModelContent.ToolCalls [t1c, t2c]))) req0) ≠
      callIdTrace (make_call w0 schedId
        (ModelResp.ok (some (ModelContent.ToolCalls [t1c, t2c]))) req0) ∧
    make_call w0 schedRev
        (ModelResp.ok (some (ModelContent.ToolCalls [t1c, t2c]))) req0 ≠
      make_call w0 schedId
        (ModelResp.ok (some (ModelContent.ToolCalls [t1c, t2c]))) req0 := by
  refine ⟨List.reverse_perm _, by decide, ?_⟩
  intro h
  have hc := congrArg callIdTrace h
  revert hc
  decide

/-- Claim C5 (amended): with a fixed model-call collaborator and fixed
provider responses the transcript is determined up to the completion
order of each round's concurrent tool executions: any two completion
orders yield transcripts that agree except for a permutation of the
round's block of tool-result messages (and coincide when the completion
order is also fixed). -/
theorem c5_transcript_determined_up_to_tool_order (w : World)
    (s1 s2 : List ToolCall → List ToolCall) (tcs : List ToolCall)
    (req : ChatRequest) (h1 : (s1 tcs).Perm tcs) (h2 : (s2 tcs).Perm tcs) :
    ∃ rs1 rs2 : List ToolResponse,
      make_call w s1 (ModelResp.ok (some (ModelContent.ToolCalls tcs))) req =
        Except.ok ⟨req.system,
          req.messages ++ Message.assistantToolCalls tcs ::
            rs1.map Message.toolResponses⟩ ∧
      make_call w s2 (ModelResp.ok (some (ModelContent.ToolCalls tcs))) req =
        Except.ok ⟨req.system,
          req.messages ++ Message.assistantToolCalls tcs ::
            rs2.map Message.toolResponses⟩ ∧
      rs1.Perm rs2 := by
  refine ⟨(s1 tcs).map (fun tc => (make_tool_call w tc).1),
          (s2 tcs).map (fun tc => (make_tool_call w tc).1), ?_, ?_, ?_⟩
  · simp only [make_call]
    rw [foldl_appendMsg]
    simp [appendMsg, List.map_map, Function.comp]
  · simp only [make_call]
    rw [foldl_appendMsg]
    simp [appendMsg, List.map_map, Function.comp]
  · exact ((h1.map _).trans (h2.map _).symm)

-- Witness for (amended) C5: identity and reversed completion orders over
-- a concrete two-call round.
theorem c5_transcript_determined_up_to_tool_order_witness :
    ∃ rs1 rs2 : List ToolResponse,
      make_call w0 schedId (ModelResp.ok (some (ModelContent.ToolCalls [t1c, t2c]))) req0 =
        Except.ok ⟨req0.system,
          req0.messages ++ Message.assistantToolCalls [t1c, t2c] ::
            rs1.map Message.toolResponses⟩ ∧
      make_call w0 schedRev (ModelResp.ok (some (ModelContent.ToolCalls [t1c, t2c]))) req0 =
        Except.ok ⟨req0.system,
          req0.messages ++ Message.assistantToolCalls [t1c, t2c] ::
            rs2.map Message.toolResponses⟩ ∧
      rs1.Perm rs2 :=
  c5_transcript_determined_up_to_tool_order w0 schedId schedRev [t1c, t2c] req0
    (List.Perm.refl _) (List.reverse_perm _)

/-- Claim C6 (code bug): on a user input line that is blank after
stripping `'>'`s and trimming (and does not trim to `"exit"`), the loop
indeed leaves the conversation unchanged and does not invoke the model —
but it does not proceed to read the next line: the Rust `continue`
(`main.rs` line 104) skips both `buffer.clear()` and the next `read_line`
(lines 134-137), so the loop re-enters with the same buffer and never
makes progress, whatever iteration budget it is given. -/
theorem c6_blank_input_busy_loop (cfg : SessionCfg) (b : String)
    (ins : List String) (scr : List ModelResp) (req : ChatRequest)
    (hne : rustTrim b ≠ "exit") (hblank : processedInput b = "") :
    ∀ fuel, session_loop cfg fuel b ins scr req = SessResult.spin b ins scr req := by
  intro fuel
  induction fuel with
  | zero => rfl
  | succ n ih =>
    rw [session_loop, if_neg hne, if_pos hblank]
    exact ih

-- Witness for C6: a lone newline as the buffer spins without consuming
-- input, calling the model, or extending the conversation.
theorem c6_blank_input_busy_loop_witness :
    session_loop cfg0 5 "\n" ["next"] [] ⟨"s", []⟩ =
      SessResult.spin "\n" ["next"] [] ⟨"s", []⟩ :=
  c6_blank_input_busy_loop cfg0 "\n" ["next"] [] ⟨"s", []⟩ (by decide) (by decide) 5

/-- Counterexample to claim C7 as stated: the session also terminates with
exit code 0 when the model's reply text is `"exit"`, even though no user
input line trims to `"exit"` — so user input is not the only road to an
exit-code-0 termination. -/
theorem c7_model_exit_without_user_exit_cex :
    run_session cfg0 3 ["hi"] [ModelResp.ok (some (ModelContent.Text "exit"))]
        ⟨"s", []⟩ =
      SessResult.exited ⟨"s", [Message.user "hi", Message.assistantText "exit"]⟩ [] ∧
    rustTrim "hi" ≠ "exit" :=
  ⟨rfl, by decide⟩

/-- Claim C7 (amended): whenever the loop processes a user input line
that, after trimming, is the case-sensitive string `"exit"`, the session
terminates with exit code 0, before any model call and with the
conversation unchanged — in particular when `"exit"` is the very first
line; this is however not the only exit-code-0 termination, since a model
reply of `"exit"` ends the session too (see the counterexample and C9). -/
theorem c7_user_exit_terminates (cfg : SessionCfg) (fuel : Nat) (b : String)
    (ins : List String) (scr : List ModelResp) (req : ChatRequest)
    (h : rustTrim b = "exit") :
    session_loop cfg (fuel + 1) b ins scr req = SessResult.exited req scr ∧
    run_session cfg (fuel + 1) (b :: ins) scr req = SessResult.exited req scr := by
  constructor
  · rw [session_loop, if_pos h]
  · have hr : run_session cfg (fuel + 1) (b :: ins) scr req =
        session_loop cfg (fuel + 1) b ins scr req := rfl
    rw [hr, session_loop, if_pos h]

-- Witness for (amended) C7: a padded first line `"  exit "` ends the
-- session at once, with the script and conversation untouched.
theorem c7_user_exit_terminates_witness :
    session_loop cfg0 (2 + 1) "  exit " ["later"] [] ⟨"s", []⟩ =
      SessResult.exited ⟨"s", []⟩ [] ∧
    run_session cfg0 (2 + 1) ("  exit " :: ["later"]) [] ⟨"s", []⟩ =
      SessResult.exited ⟨"s", []⟩ [] :=
  c7_user_exit_terminates cfg0 2 "  exit " ["later"] [] ⟨"s", []⟩ (by decide)

/-- Reachable executor states satisfy the invariant. -/
theorem DInv_reach (w : World) (cap : Nat) (tcs : List ToolCall)
    (s : DispatchState)
    (h : Relation.ReflTransGen (DStep w cap) ⟨tcs, [], []⟩ s) :
    DInv w cap tcs s := by
  induction h with
  | refl => exact DInv_init w cap tcs
  | tail hr hstep ih => exact DInv_step w cap tcs _ _ hstep ih

/-- Claim C8: in every state the bounded executor with cap 3 can reach
from a round of dispatched invocations, at most 3 executions are in
flight (excess invocations wait for a free slot), and when the round has
drained — nothing pending, nothing in flight — all n outcomes have been
collected: one response per dispatched invocation, with matching call-id
multiset, before `make_call` can proceed to the next model call. -/
theorem c8_concurrency_cap_three (w : World) (tcs : List ToolCall)
    (s : DispatchState)
    (h : Relation.ReflTransGen (DStep w 3) ⟨tcs, [], []⟩ s) :
    s.inflight.length ≤ 3 ∧
    (s.pending = [] → s.inflight = [] →
      s.done.length = tcs.length ∧
      (s.done.map ToolResponse.call_id).Perm (tcs.map ToolCall.call_id)) := by
  obtain ⟨hlen, fin, hdone, hperm⟩ := DInv_reach w 3 tcs s h
  refine ⟨hlen, ?_⟩
  intro hp hf
  rw [hp, hf] at hperm
  simp only [List.nil_append] at hperm
  constructor
  · rw [hdone, List.length_map, hperm.length_eq]
  · rw [hdone, List.map_map]
    exact hperm.map ToolCall.call_id

/-- A single invocation used to drive the executor witness. -/
def tcW : ToolCall := ⟨"w1", "nop", Json.null⟩

-- Witness for C8: the terminal state of a concrete one-invocation round,
-- reached by one start step and one finish step.
theorem c8_concurrency_cap_three_witness :
    (⟨[], [], [(make_tool_call w0 tcW).1]⟩ : DispatchState).inflight.length ≤ 3 ∧
    ((⟨[], [], [(make_tool_call w0 tcW).1]⟩ : DispatchState).pending = [] →
      (⟨[], [], [(make_tool_call w0 tcW).1]⟩ : DispatchState).inflight = [] →
      (⟨[], [], [(make_tool_call w0 tcW).1]⟩ : DispatchState).done.length =
        [tcW].length ∧
      ((⟨[], [], [(make_tool_call w0 tcW).1]⟩ : DispatchState).done.map
          ToolResponse.call_id).Perm ([tcW].map ToolCall.call_id)) :=
  c8_concurrency_cap_three w0 [tcW] ⟨[], [], [(make_tool_call w0 tcW).1]⟩
    (Relation.ReflTransGen.tail
      (Relation.ReflTransGen.single (DStep.start tcW [] [] [] (by decide)))
      (DStep.finish [] [] [] tcW []))

/-- Claim C9: every plain-text model reply is whitespace-trimmed before
being appended as the assistant message, and the session's exit check
compares that stored text with `"exit"`, so a model reply consisting of
`"exit"` surrounded by whitespace also terminates the session. -/
theorem c9_assistant_text_trimmed_exit :
    (∀ (w : World) (sched : List ToolCall → List ToolCall) (req : ChatRequest)
        (t : String),
        make_call w sched (ModelResp.ok (some (ModelContent.Text t))) req =
          Except.ok (appendMsg req (Message.assistantText (rustTrim t)))) ∧
    (∀ (cfg : SessionCfg) (fuel : Nat) (b : String) (ins : List String)
        (scr : List ModelResp) (req : ChatRequest) (t : String),
        rustTrim b ≠ "exit" → processedInput b ≠ "" → rustTrim t = "exit" →
        session_loop cfg (fuel + 1) b ins
            (ModelResp.ok (some (ModelContent.Text t)) :: scr) req =
          SessResult.exited
            ⟨req.system, req.messages ++ [Message.user (processedInput b),
                                          Message.assistantText "exit"]⟩ scr) := by
  constructor
  · intro w sched req t
    rfl
  · intro cfg fuel b ins scr req t h1 h2 h3
    exact session_step_text cfg fuel b ins scr req t h1 h2 h3

-- Witness for C9: a reply of `"  exit "` is stored trimmed and ends the
-- session after a normal user turn.
theorem c9_assistant_text_trimmed_exit_witness :
    make_call w0 schedId (ModelResp.ok (some (ModelContent.Text "  exit "))) req0 =
      Except.ok (appendMsg req0 (Message.assistantText (rustTrim "  exit "))) ∧
    session_loop cfg0 (0 + 1) "go" []
        [ModelResp.ok (some (ModelContent.Text "  exit "))] ⟨"s", []⟩ =
      SessResult.exited
        ⟨"s", [] ++ [Message.user (processedInput "go"),
                     Message.assistantText "exit"]⟩ [] :=
  ⟨c9_assistant_text_trimmed_exit.1 w0 schedId req0 "  exit ",
   c9_assistant_text_trimmed_exit.2 cfg0 0 "go" [] [] ⟨"s", []⟩ "  exit "
     (by decide) (by decide) (by decide)⟩

/-- Counterexample to claim C10 as stated: the code strips `'>'`s before
trimming, so on the line `" >hi"` (whitespace before the `'>'`) nothing is
stripped by `trim_start_matches('>')`, trimming leaves `">hi"`, and the
recorded user message begins with `'>'`. -/
theorem c10_leading_space_gt_not_stripped_cex :
    processedInput " >hi" = ">hi" ∧
    (processedInput " >hi").data.head? = some '>' ∧
    run_session cfg0 3 [" >hi"]
        [ModelResp.ok (some (ModelContent.Text "done"))] ⟨"s", []⟩ =
      SessResult.spin "" [] []
        ⟨"s", [Message.user ">hi", Message.assistantText "done"]⟩ :=
  ⟨rfl, rfl, rfl⟩

/-- Claim C10 (amended): for every non-blank user input line, the `'>'`
characters at the very start of the raw line are stripped and surrounding
whitespace is then trimmed before the text is appended as the user
message (`"> hello"` is recorded as `"hello"`); the recorded message never
begins with whitespace, but it can begin with `'>'` when whitespace
precedes the `'>'`, since only leading `'>'`s of the raw line are
stripped. -/
theorem c10_user_input_normalization :
    (∀ (b : String) (c : Char) (cs : List Char),
        (processedInput b).data = c :: cs → c.isWhitespace = false) ∧
    processedInput "> hello" = "hello" ∧
    (∀ (cfg : SessionCfg) (fuel : Nat) (b : String) (ins : List String)
        (scr : List ModelResp) (req : ChatRequest) (t : String),
        rustTrim b ≠ "exit" → processedInput b ≠ "" → rustTrim t = "exit" →
        session_loop cfg (fuel + 1) b ins
            (ModelResp.ok (some (ModelContent.Text t)) :: scr) req =
          SessResult.exited
            ⟨req.system, req.messages ++ [Message.user (processedInput b),
                                          Message.assistantText "exit"]⟩ scr) := by
  refine ⟨processedInput_head_not_ws, by decide, ?_⟩
  intro cfg fuel b ins scr req t h1 h2 h3
  exact session_step_text cfg fuel b ins scr req t h1 h2 h3

-- Witness for (amended) C10 at concrete inputs.
theorem c10_user_input_normalization_witness :
    ('h').isWhitespace = false ∧
    session_loop cfg0 (0 + 1) " >hey" []
        [ModelResp.ok (some (ModelContent.Text "exit"))] ⟨"s", []⟩ =
      SessResult.exited
        ⟨"s", [] ++ [Message.user (processedInput " >hey"),
                     Message.assistantText "exit"]⟩ [] :=
  ⟨c10_user_input_normalization.1 " ho" 'h' ['o'] (by decide),
   c10_user_input_normalization.2.2 cfg0 0 " >hey" [] [] ⟨"s", []⟩ "exit"
     (by decide) (by decide) (by decide)⟩
